import Mathlib

/-!
Shallow embedding of the value-transfer record (transaction) data model and
its amount/range/duplication validation functions from
`src/primitives/transaction.cpp` of the zen repository, together with
theorems settling the specification claims about them.

Machine-integer note: `CAmount` is a 64-bit signed integer in the source.
Every addition performed by the functions embedded here happens either after
the addends have been range-checked into `[0, MAX_MONEY]` (with the running
sum itself re-checked after each step, so it never exceeds `2 * MAX_MONEY`,
far below `2^62`), or is immediately followed by a range check whose outcome
is unchanged by 64-bit wraparound (a wrapped sum of two in-bounds `int64`
values can never land back inside `[0, MAX_MONEY]`).  Plain `Int` therefore
matches the machine semantics exactly on all paths verified here.
-/

namespace ZenTx

/-- `CAmount`: the 64-bit signed monetary amount type of the source. -/
abbrev CAmount := Int

/-- Modelled from the spec: `COIN` (defined in `amount.h`, which is not under
`src/`) — the 8-decimal money unit ("50 coins → 50·10^8"). -/
def COIN : CAmount := 100000000

/-- Modelled from the spec: `MAX_MONEY` (defined in `amount.h`, which is not
under `src/`) — the upper bound of the valid monetary range, 21 million
coins. -/
def MAX_MONEY : CAmount := 21000000 * COIN

/-- Modelled from the spec: `MoneyRange` (defined in `amount.h`, which is not
under `src/`) — an amount is in range iff it lies in `[0, MAX_MONEY]`. -/
def MoneyRange (nValue : CAmount) : Bool :=
  decide (0 ≤ nValue) && decide (nValue ≤ MAX_MONEY)

/-- A 256-bit hash value, modelled as a natural number. -/
abbrev Uint256 := Nat

/-- `COutPoint`: reference to a prior output `{txHash, outputIndex}`. -/
structure COutPoint where
  hash : Uint256
  n : Nat
  deriving DecidableEq, Repr, Inhabited

/-- Modelled from the spec: `COutPoint::IsNull` (defined in `transaction.h`,
which is not under `src/`) — the null prior-output reference used by the
synthetic coinbase input: zero hash and all-ones 32-bit index. -/
def COutPoint.IsNull (o : COutPoint) : Bool :=
  o.hash == 0 && o.n == 4294967295

/-- `CTxIn`: an input referencing a prior output, with unlocking script
bytes and a sequence number. -/
structure CTxIn where
  prevout : COutPoint
  scriptSig : List Nat
  nSequence : Nat
  deriving DecidableEq, Repr, Inhabited

/-- `CTxOut`: a transparent output `{nValue, scriptPubKey}`, optionally
flagged as produced by a backward transfer. -/
structure CTxOut where
  nValue : CAmount
  scriptPubKey : List Nat
  isFromBackwardTransfer : Bool
  deriving DecidableEq, Repr, Inhabited

/-- `JSDescription`: a shielded joinsplit description.  Only the fields read
by the functions verified here are carried: `vpub_old`, `vpub_new`, and the
nullifier list (two 256-bit values in the source's fixed-size array). -/
structure JSDescription where
  vpub_old : CAmount
  vpub_new : CAmount
  nullifiers : List Uint256
  deriving DecidableEq, Repr, Inhabited

/-- `CTxCrosschainOut`: common base of the three crosschain output variants
(creation, certifier lock, forward transfer).  The variant-specific payload
fields are never read by the functions verified here, so all three vectors
are modelled with this one structure. -/
structure CTxCrosschainOut where
  nValue : CAmount
  address : Uint256
  scId : Uint256
  deriving DecidableEq, Repr, Inhabited

/-- `CTransaction`: the immutable value-transfer record. -/
structure CTransaction where
  nVersion : Int
  vin : List CTxIn
  vout : List CTxOut
  vsc_ccout : List CTxCrosschainOut
  vcl_ccout : List CTxCrosschainOut
  vft_ccout : List CTxCrosschainOut
  nLockTime : Nat
  vjoinsplit : List JSDescription
  joinSplitPubKey : Uint256
  deriving DecidableEq, Repr, Inhabited

/-- The data `state.DoS(score, ..., REJECT_INVALID, reason)` records in the
validation-result accumulator before the check returns `false`. -/
structure Rejection where
  nDoS : Nat
  strRejectReason : String
  deriving DecidableEq, Repr

/-- Modelled from the spec: `CTransaction::IsCoinBase` (declared in
`transaction.h`, which is not under `src/`) — a coinbase record has a single
null-referencing input. -/
def CTransaction.IsCoinBase (tx : CTransaction) : Bool :=
  match tx.vin with
  | [txin] => txin.prevout.IsNull
  | _ => false

/-- The transparent-output loop of `CTransactionBase::CheckOutputsAmount`
(transaction.cpp:393-406): scans `vout` in order, rejecting a negative
amount, an amount above `MAX_MONEY`, or a running sum leaving `MoneyRange`;
on success returns the cumulated output value. -/
def checkVoutAmountLoop : CAmount → List CTxOut → Except Rejection CAmount
  | nCumulatedValueOut, [] => .ok nCumulatedValueOut
  | nCumulatedValueOut, txout :: rest =>
    if txout.nValue < 0 then
      .error ⟨100, "bad-txns-vout-negative"⟩
    else if txout.nValue > MAX_MONEY then
      .error ⟨100, "bad-txns-vout-toolarge"⟩
    else if !MoneyRange (nCumulatedValueOut + txout.nValue) then
      .error ⟨100, "bad-txns-txouttotal-toolarge"⟩
    else
      checkVoutAmountLoop (nCumulatedValueOut + txout.nValue) rest

/-- The joinsplit loop of `CTransactionBase::CheckOutputsAmount`
(transaction.cpp:409-441): checks each joinsplit's `vpub_old`/`vpub_new`
ranges and the not-both-nonzero rule, then folds `vpub_old` into the same
running output total. -/
def checkJsOutputsLoop : CAmount → List JSDescription → Except Rejection Unit
  | _, [] => .ok ()
  | nCumulatedValueOut, joinsplit :: rest =>
    if joinsplit.vpub_old < 0 then
      .error ⟨100, "bad-txns-vpub_old-negative"⟩
    else if joinsplit.vpub_new < 0 then
      .error ⟨100, "bad-txns-vpub_new-negative"⟩
    else if joinsplit.vpub_old > MAX_MONEY then
      .error ⟨100, "bad-txns-vpub_old-toolarge"⟩
    else if joinsplit.vpub_new > MAX_MONEY then
      .error ⟨100, "bad-txns-vpub_new-toolarge"⟩
    else if joinsplit.vpub_new ≠ 0 && joinsplit.vpub_old ≠ 0 then
      .error ⟨100, "bad-txns-vpubs-both-nonzero"⟩
    else if !MoneyRange (nCumulatedValueOut + joinsplit.vpub_old) then
      .error ⟨100, "bad-txns-txouttotal-toolarge"⟩
    else
      checkJsOutputsLoop (nCumulatedValueOut + joinsplit.vpub_old) rest

/-- `CTransactionBase::CheckOutputsAmount` (transaction.cpp:390-444). -/
def CTransaction.CheckOutputsAmount (tx : CTransaction) : Except Rejection Unit :=
  match checkVoutAmountLoop 0 tx.vout with
  | .error e => .error e
  | .ok nCumulatedValueOut => checkJsOutputsLoop nCumulatedValueOut tx.vjoinsplit

/-- The loop of `CTransactionBase::CheckInputsAmount`
(transaction.cpp:376-385): folds each joinsplit's `vpub_new` into a running
total, rejecting when the value or the total leaves `MoneyRange`. -/
def checkInputsAmountLoop : CAmount → List JSDescription → Except Rejection Unit
  | _, [] => .ok ()
  | nCumulatedValueIn, joinsplit :: rest =>
    if !MoneyRange joinsplit.vpub_new || !MoneyRange (nCumulatedValueIn + joinsplit.vpub_new) then
      .error ⟨100, "bad-txns-txintotal-toolarge"⟩
    else
      checkInputsAmountLoop (nCumulatedValueIn + joinsplit.vpub_new) rest

/-- `CTransactionBase::CheckInputsAmount` (transaction.cpp:370-388). -/
def CTransaction.CheckInputsAmount (tx : CTransaction) : Except Rejection Unit :=
  checkInputsAmountLoop 0 tx.vjoinsplit

/-- The input loop of `CTransactionBase::CheckInputsDuplication`
(transaction.cpp:449-456): the `std::set` of already-seen prior-output
references is modelled as the list of inserted elements; on success the
final set is returned. -/
def checkVinDupLoop : List COutPoint → List CTxIn → Except Rejection (List COutPoint)
  | vInOutPoints, [] => .ok vInOutPoints
  | vInOutPoints, txin :: rest =>
    if txin.prevout ∈ vInOutPoints then
      .error ⟨100, "bad-txns-inputs-duplicate"⟩
    else
      checkVinDupLoop (txin.prevout :: vInOutPoints) rest

/-- The inner nullifier loop of `CTransactionBase::CheckInputsDuplication`
(transaction.cpp:462-469): scans one joinsplit's nullifiers against the
shared seen-set, returning the updated set. -/
def checkNullifiersInJs : List Uint256 → List Uint256 → Except Rejection (List Uint256)
  | vJoinSplitNullifiers, [] => .ok vJoinSplitNullifiers
  | vJoinSplitNullifiers, nf :: rest =>
    if nf ∈ vJoinSplitNullifiers then
      .error ⟨100, "bad-joinsplits-nullifiers-duplicate"⟩
    else
      checkNullifiersInJs (nf :: vJoinSplitNullifiers) rest

/-- The outer nullifier loop of `CTransactionBase::CheckInputsDuplication`
(transaction.cpp:460-470): one shared seen-set across all joinsplits. -/
def checkJsNullifierLoop : List Uint256 → List JSDescription → Except Rejection Unit
  | _, [] => .ok ()
  | vJoinSplitNullifiers, joinsplit :: rest =>
    match checkNullifiersInJs vJoinSplitNullifiers joinsplit.nullifiers with
    | .error e => .error e
    | .ok seen => checkJsNullifierLoop seen rest

/-- `CTransactionBase::CheckInputsDuplication` (transaction.cpp:446-473). -/
def CTransaction.CheckInputsDuplication (tx : CTransaction) : Except Rejection Unit :=
  match checkVinDupLoop [] tx.vin with
  | .error e => .error e
  | .ok _ => checkJsNullifierLoop [] tx.vjoinsplit

/-- The non-coinbase loop of `CTransactionBase::CheckInputsInteraction`
(transaction.cpp:490-493): every input must reference a non-null prior
output. -/
def checkPrevoutNullLoop : List CTxIn → Except Rejection Unit
  | [] => .ok ()
  | txin :: rest =>
    if txin.prevout.IsNull then
      .error ⟨10, "bad-txns-prevout-null"⟩
    else
      checkPrevoutNullLoop rest

/-- `CTransactionBase::CheckInputsInteraction` (transaction.cpp:475-497).
The source reads `GetVin()[0]` only under `IsCoinBase()`, which guarantees a
single input; `headD` with the (unreachable) default mirrors that access. -/
def CTransaction.CheckInputsInteraction (tx : CTransaction) : Except Rejection Unit :=
  if tx.IsCoinBase then
    if tx.vjoinsplit.length > 0 then
      .error ⟨100, "bad-cb-has-joinsplits"⟩
    else if (tx.vin.headD default).scriptSig.length < 2 ||
        (tx.vin.headD default).scriptSig.length > 100 then
      .error ⟨100, "bad-cb-length"⟩
    else
      .ok ()
  else
    checkPrevoutNullLoop tx.vin

/-- The loop of `CTransactionBase::GetValueOut` (transaction.cpp:360-366):
adds each output's value and throws (`none`) when the value or the running
sum leaves `MoneyRange`. -/
def getValueOutVoutLoop : CAmount → List CTxOut → Option CAmount
  | nValueOut, [] => some nValueOut
  | nValueOut, txout :: rest =>
    if !MoneyRange txout.nValue || !MoneyRange (nValueOut + txout.nValue) then
      none
    else
      getValueOutVoutLoop (nValueOut + txout.nValue) rest

/-- The joinsplit loop of `CTransaction::GetValueOut`
(transaction.cpp:632-639): folds each `vpub_old` into the total with the
same range checks. -/
def getValueOutJsLoop : CAmount → List JSDescription → Option CAmount
  | nValueOut, [] => some nValueOut
  | nValueOut, joinsplit :: rest =>
    if !MoneyRange joinsplit.vpub_old || !MoneyRange (nValueOut + joinsplit.vpub_old) then
      none
    else
      getValueOutJsLoop (nValueOut + joinsplit.vpub_old) rest

/-- Modelled from the spec: `GetValueCcOut` (declared in the header, which is
not under `src/`) — the crosschain-out sum used by `valueOut()`, "each step
range-checked, failing with an overflow condition if any partial sum exceeds
`MAX_MONEY`". -/
def getValueCcOutLoop : CAmount → List CTxCrosschainOut → Option CAmount
  | acc, [] => some acc
  | acc, ccout :: rest =>
    if !MoneyRange ccout.nValue || !MoneyRange (acc + ccout.nValue) then
      none
    else
      getValueCcOutLoop (acc + ccout.nValue) rest

/-- Modelled from the spec: `GetValueCcOut` over one crosschain output
vector, starting from zero. -/
def GetValueCcOut (ccouts : List CTxCrosschainOut) : Option CAmount :=
  getValueCcOutLoop 0 ccouts

/-- `CTransaction::GetValueOut` (transaction.cpp:627-643): the transparent
output sum, then the joinsplit `vpub_old` sum on the same running total,
then the three crosschain-out sums added without a further range check on
the final total. -/
def CTransaction.GetValueOut (tx : CTransaction) : Option CAmount := do
  let base ← getValueOutVoutLoop 0 tx.vout
  let withJs ← getValueOutJsLoop base tx.vjoinsplit
  let sc ← GetValueCcOut tx.vsc_ccout
  let cl ← GetValueCcOut tx.vcl_ccout
  let ft ← GetValueCcOut tx.vft_ccout
  some (withJs + (sc + cl + ft))

/-- The loop of `CTransaction::GetJoinSplitValueIn`
(transaction.cpp:645-658): folds each `vpub_new` into a total, throwing
(`none`) when the value or the total leaves `MoneyRange`. -/
def getJoinSplitValueInLoop : CAmount → List JSDescription → Option CAmount
  | nValue, [] => some nValue
  | nValue, joinsplit :: rest =>
    if !MoneyRange joinsplit.vpub_new || !MoneyRange (nValue + joinsplit.vpub_new) then
      none
    else
      getJoinSplitValueInLoop (nValue + joinsplit.vpub_new) rest

/-- `CTransaction::GetJoinSplitValueIn` (transaction.cpp:645-658). -/
def CTransaction.GetJoinSplitValueIn (tx : CTransaction) : Option CAmount :=
  getJoinSplitValueInLoop 0 tx.vjoinsplit

/-- `CTransaction::GetValueIn` (transaction.cpp:866-881).  The external UTXO
view's `GetOutputFor` is modelled as a lookup function returning `none` when
resolution is impossible (the source then faults); a coinbase record returns
0 before any lookup. -/
def CTransaction.GetValueIn (tx : CTransaction) (view : CTxIn → Option CTxOut) :
    Option CAmount :=
  if tx.IsCoinBase then
    some 0
  else do
    let outs ← tx.vin.mapM view
    let jsValueIn ← tx.GetJoinSplitValueIn
    some ((outs.map (·.nValue)).sum + jsValueIn)

/-- `CTxCrosschainOut::CheckAmountRange` (transaction.cpp:267-284).  The
by-reference `cumulatedAmount` accumulator is modelled by returning the pair
(result, accumulator after the call). -/
def CTxCrosschainOut.CheckAmountRange (ccout : CTxCrosschainOut)
    (cumulatedAmount : CAmount) : Bool × CAmount :=
  if ccout.nValue == 0 || !MoneyRange ccout.nValue then
    (false, cumulatedAmount)
  else if !MoneyRange (cumulatedAmount + ccout.nValue) then
    (false, cumulatedAmount + ccout.nValue)
  else
    (true, cumulatedAmount + ccout.nValue)

/-- Modelled from the spec: `MappedShuffle` (from a utility header not under
`src/`) specialised to the fixed joinsplit arity of two ("consuming up to
two input notes and producing up to two output notes").  The helper shuffles
the two-element array according to the caller-supplied generator's draw
`r` (an index bounded by the position being shuffled), applying the same
rearrangement to a parallel map initialised to the identity `(0, 1)`, so
that the permutation actually applied is recorded: after the call, position
`k` of the shuffled array holds the element that was at position `map k` of
the original. -/
def mappedShuffle2 (a : α × α) (r : Nat) : (α × α) × (Nat × Nat) :=
  if r = 0 then ((a.2, a.1), (1, 0)) else (a, (0, 1))

/-- Applying a recorded two-element permutation map to the shuffled array:
the element at position `k` of the shuffled array is placed back at position
`map k`, reconstructing the pre-shuffle order. -/
def applyRecordedMap [Inhabited α] (m : Nat × Nat) (s : α × α) : α × α :=
  ((if m.1 = 0 then s.1 else if m.2 = 0 then s.2 else default),
   (if m.1 = 1 then s.1 else if m.2 = 1 then s.2 else default))

/-- Modelled from the spec: the shuffle-and-record portion of
`JSDescription::Randomized` (transaction.cpp:75-112) — the proof
construction it then performs is an external proving-system call outside
this model.  The inputs and outputs are shuffled independently; `r1` and
`r2` are the two successive draws of the caller-supplied generator `gen`
(invoked once per array). -/
def JSDescription.RandomizedShuffle (inputs : α × α) (outputs : β × β)
    (r1 r2 : Nat) : ((α × α) × (Nat × Nat)) × ((β × β) × (Nat × Nat)) :=
  (mappedShuffle2 inputs r1, mappedShuffle2 outputs r2)

/-! Claim-side definitions: these restate the spec's wording (indexed first
violation, per-element well-formedness, plain sums) independently of the
accumulator-loop embedding above, so that the theorems below relate the two
formulations. -/

/-- The sum of the transparent output amounts of a record. -/
def sumVoutValues (tx : CTransaction) : CAmount :=
  (tx.vout.map (·.nValue)).sum

/-- The sum of the joinsplit `vpub_old` amounts of a record. -/
def sumVpubOld (tx : CTransaction) : CAmount :=
  (tx.vjoinsplit.map (·.vpub_old)).sum

/-- The sum of the joinsplit `vpub_new` amounts of a record. -/
def sumVpubNew (tx : CTransaction) : CAmount :=
  (tx.vjoinsplit.map (·.vpub_new)).sum

/-- The sum of all crosschain output amounts of a record, across the three
variant vectors. -/
def sumCcOutValues (tx : CTransaction) : CAmount :=
  (tx.vsc_ccout.map (·.nValue)).sum + (tx.vcl_ccout.map (·.nValue)).sum +
    (tx.vft_ccout.map (·.nValue)).sum

/-- The named violation, if any, that output `i` of the list exhibits in the
scan of the transparent-output check, per the spec's wording: a negative
amount, an amount above `MAX_MONEY`, or a running output total (starting
from `base`) that leaves `MoneyRange` at this output. -/
def voutViolationAt (base : CAmount) (vout : List CTxOut) (i : Nat) : Option Rejection :=
  match vout[i]? with
  | none => none
  | some txout =>
    if txout.nValue < 0 then some ⟨100, "bad-txns-vout-negative"⟩
    else if txout.nValue > MAX_MONEY then some ⟨100, "bad-txns-vout-toolarge"⟩
    else if !MoneyRange (base + ((vout.take (i + 1)).map (·.nValue)).sum) then
      some ⟨100, "bad-txns-txouttotal-toolarge"⟩
    else none

/-- Per the spec's wording: every joinsplit's `vpub_old` and `vpub_new` lie
in `[0, MAX_MONEY]` and at most one of them is nonzero. -/
def jsValuesWellFormed (l : List JSDescription) : Prop :=
  ∀ js ∈ l, 0 ≤ js.vpub_old ∧ js.vpub_old ≤ MAX_MONEY ∧
    0 ≤ js.vpub_new ∧ js.vpub_new ≤ MAX_MONEY ∧
    ¬(js.vpub_new ≠ 0 ∧ js.vpub_old ≠ 0)

/-! Concrete example records used by the counterexample and witness
theorems. -/

/-- The null prior-output reference of a synthetic coinbase input. -/
def nullPrevout : COutPoint := ⟨0, 4294967295⟩

/-- The spec's example scenario: a coinbase record with one synthetic input
of scriptSig length 2, zero joinsplits, and one output of 50 coins. -/
def coinbaseTx : CTransaction :=
  { nVersion := 1, vin := [⟨nullPrevout, [81, 81], 4294967295⟩],
    vout := [⟨50 * COIN, [], false⟩],
    vsc_ccout := [], vcl_ccout := [], vft_ccout := [],
    nLockTime := 0, vjoinsplit := [], joinSplitPubKey := 0 }

/-- A coinbase record that also carries a joinsplit claiming `vpub_new = 7`
(used to show `GetValueIn` ignores joinsplits on the coinbase path). -/
def coinbaseJsTx : CTransaction :=
  { coinbaseTx with vjoinsplit := [⟨0, 7, [1, 2]⟩] }

/-- A record with one transparent output of 10 and one forward-transfer
crosschain output of 5; it passes both amount checks yet its crosschain
value is counted by `GetValueOut`. -/
def ccTx : CTransaction :=
  { nVersion := 1, vin := [⟨⟨1, 0⟩, [81], 0⟩],
    vout := [⟨10, [], false⟩],
    vsc_ccout := [], vcl_ccout := [], vft_ccout := [⟨5, 3, 4⟩],
    nLockTime := 0, vjoinsplit := [], joinSplitPubKey := 0 }

/-- A record whose second output is negative and whose third output exceeds
`MAX_MONEY`: the scan must report the second output's violation. -/
def txVoutBad : CTransaction :=
  { nVersion := 1, vin := [⟨⟨1, 0⟩, [81], 0⟩],
    vout := [⟨3, [], false⟩, ⟨-2, [], false⟩, ⟨MAX_MONEY + 1, [], false⟩],
    vsc_ccout := [], vcl_ccout := [], vft_ccout := [],
    nLockTime := 0, vjoinsplit := [], joinSplitPubKey := 0 }

/-- A record with well-formed outputs and joinsplits (one `vpub_old` of 3,
one `vpub_new` of 5 in separate joinsplits). -/
def txJsGood : CTransaction :=
  { nVersion := 1, vin := [⟨⟨1, 0⟩, [81], 0⟩],
    vout := [⟨10, [], false⟩],
    vsc_ccout := [], vcl_ccout := [], vft_ccout := [],
    nLockTime := 0, vjoinsplit := [⟨3, 0, [1, 2]⟩, ⟨0, 5, [3, 4]⟩],
    joinSplitPubKey := 0 }

/-- A record with two inputs referencing the same prior output. -/
def txDupIn : CTransaction :=
  { nVersion := 1, vin := [⟨⟨1, 0⟩, [81], 0⟩, ⟨⟨1, 0⟩, [82], 0⟩],
    vout := [⟨10, [], false⟩],
    vsc_ccout := [], vcl_ccout := [], vft_ccout := [],
    nLockTime := 0, vjoinsplit := [], joinSplitPubKey := 0 }

/-- A crosschain output of amount 5. -/
def ccOut5 : CTxCrosschainOut := ⟨5, 3, 4⟩

/-- A crosschain output of amount `MAX_MONEY` (in range on its own, but
overflowing any positive accumulator). -/
def ccOutMax : CTxCrosschainOut := ⟨MAX_MONEY, 3, 4⟩

/-! Theorems -/

/-- `MoneyRange` holds exactly on `[0, MAX_MONEY]`. -/
theorem MoneyRange_iff (x : CAmount) : MoneyRange x = true ↔ 0 ≤ x ∧ x ≤ MAX_MONEY := by
  simp [MoneyRange]

/-- C4: `CTxCrosschainOut::CheckAmountRange` returns true iff the output's
value is strictly positive, in `MoneyRange`, and the updated cumulated
amount is still in `MoneyRange`; on a true return the cumulated amount has
been increased by exactly the output's value. -/
theorem checkAmountRange_true_iff (ccout : CTxCrosschainOut) (cumulatedAmount : CAmount) :
    ((ccout.CheckAmountRange cumulatedAmount).1 = true ↔
      0 < ccout.nValue ∧ MoneyRange ccout.nValue = true ∧
        MoneyRange (cumulatedAmount + ccout.nValue) = true) ∧
    ((ccout.CheckAmountRange cumulatedAmount).1 = true →
      (ccout.CheckAmountRange cumulatedAmount).2 = cumulatedAmount + ccout.nValue) := by
  by_cases h0 : ccout.nValue = 0
  · simp [CTxCrosschainOut.CheckAmountRange, h0]
  · by_cases h1 : MoneyRange ccout.nValue = true
    · have hpos : 0 < ccout.nValue :=
        lt_of_le_of_ne ((MoneyRange_iff ccout.nValue).mp h1).1 (Ne.symm h0)
      by_cases h2 : MoneyRange (cumulatedAmount + ccout.nValue) = true
      · simp [CTxCrosschainOut.CheckAmountRange, h0, h1, h2, hpos]
      · simp only [Bool.not_eq_true] at h2
        simp [CTxCrosschainOut.CheckAmountRange, h0, h1, h2]
    · simp only [Bool.not_eq_true] at h1
      simp [CTxCrosschainOut.CheckAmountRange, h0, h1]

/-- Witness for C4: a crosschain output of 5 added to a zero accumulator
passes, and the accumulator becomes 5. -/
theorem checkAmountRange_true_iff_witness :
    (ccOut5.CheckAmountRange 0).1 = true ∧ (ccOut5.CheckAmountRange 0).2 = 0 + 5 := by
  have h := checkAmountRange_true_iff ccOut5 0
  have h1 := h.1.mpr (by decide)
  exact ⟨h1, h.2 h1⟩

/-- C10: when `CheckAmountRange` fails because the cumulated amount left
`MoneyRange` after adding an in-range nonzero value, the accumulator has
nevertheless been increased by that value; it is left unchanged only when
the value itself is zero or out of range. -/
theorem checkAmountRange_overflow_keeps_add (ccout : CTxCrosschainOut)
    (cumulatedAmount : CAmount) :
    (ccout.nValue ≠ 0 → MoneyRange ccout.nValue = true →
      MoneyRange (cumulatedAmount + ccout.nValue) = false →
      ccout.CheckAmountRange cumulatedAmount = (false, cumulatedAmount + ccout.nValue)) ∧
    ((ccout.nValue = 0 ∨ MoneyRange ccout.nValue = false) →
      ccout.CheckAmountRange cumulatedAmount = (false, cumulatedAmount)) := by
  constructor
  · intro h0 h1 h2
    simp [CTxCrosschainOut.CheckAmountRange, h0, h1, h2]
  · intro h
    rcases h with h | h <;> simp [CTxCrosschainOut.CheckAmountRange, h]

/-- Witness for C10: adding `MAX_MONEY` to an accumulator of 1 fails the
cumulated check, yet the accumulator ends at `1 + MAX_MONEY`. -/
theorem checkAmountRange_overflow_keeps_add_witness :
    ccOutMax.CheckAmountRange 1 = (false, 1 + MAX_MONEY) :=
  (checkAmountRange_overflow_keeps_add ccOutMax 1).1 (by decide) (by decide) (by decide)

/-- C9: for a coinbase record, `GetValueIn` returns 0 without consulting the
UTXO view (the result is the same for every view) and without adding the
joinsplit `vpub_new` sum. -/
theorem getValueIn_coinbase (tx : CTransaction) (view view' : CTxIn → Option CTxOut)
    (h : tx.IsCoinBase = true) :
    tx.GetValueIn view = some 0 ∧ tx.GetValueIn view = tx.GetValueIn view' := by
  constructor <;> simp [CTransaction.GetValueIn, h]

/-- Witness for C9: a coinbase record carrying a joinsplit with
`vpub_new = 7` still yields `GetValueIn = 0`, even under a view that can
resolve nothing. -/
theorem getValueIn_coinbase_witness :
    coinbaseJsTx.GetValueIn (fun _ => none) = some 0 ∧
    coinbaseJsTx.GetValueIn (fun _ => none) =
      coinbaseJsTx.GetValueIn (fun _ => some ⟨1, [], false⟩) :=
  getValueIn_coinbase coinbaseJsTx _ _ (by decide)

/-- C7: the shuffle-and-record helper of `JSDescription::Randomized`
shuffles inputs and outputs independently, and applying each recorded map to
its shuffled array reconstructs the original order exactly. -/
theorem randomizedShuffle_roundTrip {α β : Type} [Inhabited α] [Inhabited β]
    (inputs : α × α) (outputs : β × β) (r1 r2 : Nat) (h1 : r1 ≤ 1) (h2 : r2 ≤ 1) :
    applyRecordedMap (JSDescription.RandomizedShuffle inputs outputs r1 r2).1.2
        (JSDescription.RandomizedShuffle inputs outputs r1 r2).1.1 = inputs ∧
    applyRecordedMap (JSDescription.RandomizedShuffle inputs outputs r1 r2).2.2
        (JSDescription.RandomizedShuffle inputs outputs r1 r2).2.1 = outputs := by
  have e1 : r1 = 0 ∨ r1 = 1 := by omega
  have e2 : r2 = 0 ∨ r2 = 1 := by omega
  rcases e1 with h | h <;> rcases e2 with h' | h' <;> subst h <;> subst h' <;>
    simp [JSDescription.RandomizedShuffle, mappedShuffle2, applyRecordedMap]

/-- Witness for C7: a concrete round trip with the inputs swapped
(`r1 = 0`) and the outputs left in place (`r2 = 1`). -/
theorem randomizedShuffle_roundTrip_witness :
    applyRecordedMap (JSDescription.RandomizedShuffle ((1 : Nat), 2) ((10 : Nat), 20) 0 1).1.2
        (JSDescription.RandomizedShuffle ((1 : Nat), 2) ((10 : Nat), 20) 0 1).1.1 = (1, 2) ∧
    applyRecordedMap (JSDescription.RandomizedShuffle ((1 : Nat), 2) ((10 : Nat), 20) 0 1).2.2
        (JSDescription.RandomizedShuffle ((1 : Nat), 2) ((10 : Nat), 20) 0 1).2.1 = (10, 20) :=
  randomizedShuffle_roundTrip (1, 2) (10, 20) 0 1 (by decide) (by decide)

/-- The non-coinbase input loop succeeds iff no input references a null
prior output. -/
theorem prevoutNullLoop_ok_iff (l : List CTxIn) :
    checkPrevoutNullLoop l = .ok () ↔ ∀ txin ∈ l, txin.prevout.IsNull = false := by
  induction l with
  | nil => simp [checkPrevoutNullLoop]
  | cons t rest ih =>
    by_cases h : t.prevout.IsNull = true
    · simp [checkPrevoutNullLoop, h]
    · simp only [Bool.not_eq_true] at h
      simp [checkPrevoutNullLoop, h, ih]

/-- Any failure of the non-coinbase input loop carries the
`bad-txns-prevout-null` reason at DoS level 10. -/
theorem prevoutNullLoop_error (l : List CTxIn) (e : Rejection) :
    checkPrevoutNullLoop l = .error e → e = ⟨10, "bad-txns-prevout-null"⟩ := by
  induction l with
  | nil => intro he; simp [checkPrevoutNullLoop] at he
  | cons t rest ih =>
    intro he
    by_cases h : t.prevout.IsNull = true
    · simp [checkPrevoutNullLoop, h] at he
      exact he.symm
    · simp only [Bool.not_eq_true] at h
      simp [checkPrevoutNullLoop, h] at he
      exact ih he

/-- C6: for a coinbase record `CheckInputsInteraction` succeeds iff there
are no joinsplits and the first input's scriptSig length is between 2 and
100 inclusive (failing with `bad-cb-has-joinsplits` / `bad-cb-length`); for
a non-coinbase record it succeeds iff no input references a null prior
output (failing with `bad-txns-prevout-null`). -/
theorem checkInputsInteraction_spec (tx : CTransaction) :
    (tx.IsCoinBase = true →
      (tx.CheckInputsInteraction = .ok () ↔
        tx.vjoinsplit = [] ∧ 2 ≤ (tx.vin.headD default).scriptSig.length ∧
          (tx.vin.headD default).scriptSig.length ≤ 100)) ∧
    (tx.IsCoinBase = true → tx.vjoinsplit ≠ [] →
      tx.CheckInputsInteraction = .error ⟨100, "bad-cb-has-joinsplits"⟩) ∧
    (tx.IsCoinBase = true → tx.vjoinsplit = [] →
      ((tx.vin.headD default).scriptSig.length < 2 ∨
        100 < (tx.vin.headD default).scriptSig.length) →
      tx.CheckInputsInteraction = .error ⟨100, "bad-cb-length"⟩) ∧
    (tx.IsCoinBase = false →
      (tx.CheckInputsInteraction = .ok () ↔
        ∀ txin ∈ tx.vin, txin.prevout.IsNull = false)) ∧
    (tx.IsCoinBase = false → (∃ txin ∈ tx.vin, txin.prevout.IsNull = true) →
      tx.CheckInputsInteraction = .error ⟨10, "bad-txns-prevout-null"⟩) := by
  refine ⟨?_, ?_, ?_, ?_, ?_⟩
  · intro h
    by_cases hjs : tx.vjoinsplit = []
    · simp [CTransaction.CheckInputsInteraction, h, hjs]
    · have hlen : 0 < tx.vjoinsplit.length := List.length_pos.mpr hjs
      simp [CTransaction.CheckInputsInteraction, h, hjs, hlen]
  · intro h hjs
    have hlen : 0 < tx.vjoinsplit.length := List.length_pos.mpr hjs
    simp [CTransaction.CheckInputsInteraction, h, hlen]
  · intro h hjs hbad
    simp only [List.headD_eq_head?_getD] at hbad
    simp [CTransaction.CheckInputsInteraction, h, hjs]
    omega
  · intro h
    simp [CTransaction.CheckInputsInteraction, h]
    exact prevoutNullLoop_ok_iff tx.vin
  · intro h hex
    rcases hloop : checkPrevoutNullLoop tx.vin with e | u
    · have he := prevoutNullLoop_error tx.vin e hloop
      simp [CTransaction.CheckInputsInteraction, h, hloop, he]
    · exfalso
      rcases hex with ⟨txin, hmem, hnull⟩
      have hok : checkPrevoutNullLoop tx.vin = .ok () := by
        cases u
        exact hloop
      have hall := (prevoutNullLoop_ok_iff tx.vin).mp hok txin hmem
      rw [hnull] at hall
      cases hall

/-- Witness for C6: the spec's example coinbase record (one synthetic input
with a 2-byte scriptSig, zero joinsplits) passes `CheckInputsInteraction`. -/
theorem checkInputsInteraction_spec_witness :
    coinbaseTx.CheckInputsInteraction = .ok () :=
  ((checkInputsInteraction_spec coinbaseTx).1 (by decide)).mpr (by decide)

/-- Unfolding a universally quantified running-total condition over a cons
cell: the head contributes the first total, the tail's totals start from the
increased accumulator. -/
theorem forallTotals_cons {α : Type} (f : α → CAmount) (t : α) (rest : List α)
    (acc : CAmount) :
    (∀ k, k < (t :: rest).length →
      MoneyRange (acc + (((t :: rest).take (k + 1)).map f).sum) = true) ↔
    (MoneyRange (acc + f t) = true ∧
      ∀ k, k < rest.length →
        MoneyRange ((acc + f t) + ((rest.take (k + 1)).map f).sum) = true) := by
  constructor
  · intro h
    refine ⟨by simpa using h 0 (by simp), ?_⟩
    intro k hk
    have := h (k + 1) (by simpa using Nat.succ_lt_succ hk)
    simpa [add_assoc] using this
  · rintro ⟨h0, h⟩
    intro k hk
    cases k with
    | zero => simpa using h0
    | succ k' =>
      have hk' : k' < rest.length := by simpa using hk
      simpa [add_assoc] using h k' hk'

/-- The `CheckInputsAmount` loop succeeds iff every `vpub_new` is in range
and every running total of `vpub_new` values (from `acc`) stays in range. -/
theorem checkInputsLoop_ok_iff (l : List JSDescription) : ∀ acc : CAmount,
    checkInputsAmountLoop acc l = .ok () ↔
      (∀ js ∈ l, MoneyRange js.vpub_new = true) ∧
      (∀ k, k < l.length →
        MoneyRange (acc + ((l.take (k + 1)).map (·.vpub_new)).sum) = true) := by
  induction l with
  | nil => intro acc; simp [checkInputsAmountLoop]
  | cons t rest ih =>
    intro acc
    rw [forallTotals_cons (·.vpub_new) t rest acc]
    by_cases h1 : MoneyRange t.vpub_new = true
    · by_cases h2 : MoneyRange (acc + t.vpub_new) = true
      · rw [show checkInputsAmountLoop acc (t :: rest) = checkInputsAmountLoop (acc + t.vpub_new) rest from by
          simp [checkInputsAmountLoop, h1, h2]]
        rw [ih (acc + t.vpub_new)]
        simp [List.forall_mem_cons, h1, h2]
      · simp only [Bool.not_eq_true] at h2
        simp [checkInputsAmountLoop, h1, h2, List.forall_mem_cons]
    · simp only [Bool.not_eq_true] at h1
      simp [checkInputsAmountLoop, h1, List.forall_mem_cons]

/-- Any failure of the `CheckInputsAmount` loop carries the
`bad-txns-txintotal-toolarge` reason at DoS level 100. -/
theorem checkInputsLoop_error (l : List JSDescription) :
    ∀ (acc : CAmount) (e : Rejection), checkInputsAmountLoop acc l = .error e →
      e = ⟨100, "bad-txns-txintotal-toolarge"⟩ := by
  induction l with
  | nil => intro acc e he; simp [checkInputsAmountLoop] at he
  | cons t rest ih =>
    intro acc e he
    by_cases h : (!MoneyRange t.vpub_new || !MoneyRange (acc + t.vpub_new)) = true
    · simp [checkInputsAmountLoop, h] at he
      exact he.symm
    · simp only [Bool.not_eq_true] at h
      simp [checkInputsAmountLoop, h] at he
      exact ih _ _ he

/-- C8: `CheckInputsAmount` succeeds iff every joinsplit's `vpub_new` lies in
`[0, MAX_MONEY]` and every running total of the `vpub_new` values stays in
`MoneyRange`; any violation fails with `bad-txns-txintotal-toolarge`. -/
theorem checkInputsAmount_spec (tx : CTransaction) :
    (tx.CheckInputsAmount = .ok () ↔
      (∀ js ∈ tx.vjoinsplit, 0 ≤ js.vpub_new ∧ js.vpub_new ≤ MAX_MONEY) ∧
      (∀ k, k < tx.vjoinsplit.length →
        MoneyRange (((tx.vjoinsplit.take (k + 1)).map (·.vpub_new)).sum) = true)) ∧
    (∀ e, tx.CheckInputsAmount = .error e →
      e = ⟨100, "bad-txns-txintotal-toolarge"⟩) := by
  constructor
  · rw [CTransaction.CheckInputsAmount, checkInputsLoop_ok_iff]
    simp [MoneyRange_iff]
  · intro e
    exact checkInputsLoop_error tx.vjoinsplit 0 e

/-- Witness for C8: a record with `vpub_new` values 0 and 5 passes
`CheckInputsAmount`. -/
theorem checkInputsAmount_spec_witness : txJsGood.CheckInputsAmount = .ok () := by
  apply (checkInputsAmount_spec txJsGood).1.mpr
  refine ⟨by decide, ?_⟩
  intro k hk
  have hk2 : k = 0 ∨ k = 1 := by
    simp [txJsGood] at hk
    omega
  rcases hk2 with rfl | rfl <;> decide

/-- The indexed violation of the head output of a cons cell. -/
theorem voutViolationAt_cons_zero (base : CAmount) (t : CTxOut) (rest : List CTxOut) :
    voutViolationAt base (t :: rest) 0 =
      (if t.nValue < 0 then some ⟨100, "bad-txns-vout-negative"⟩
       else if t.nValue > MAX_MONEY then some ⟨100, "bad-txns-vout-toolarge"⟩
       else if !MoneyRange (base + t.nValue) then some ⟨100, "bad-txns-txouttotal-toolarge"⟩
       else none) := by
  simp [voutViolationAt]

/-- Shifting the indexed violation past a passing head output. -/
theorem voutViolationAt_cons_succ (base : CAmount) (t : CTxOut) (rest : List CTxOut)
    (i : Nat) :
    voutViolationAt base (t :: rest) (i + 1) = voutViolationAt (base + t.nValue) rest i := by
  rcases h : rest[i]? with _ | txout
  · simp [voutViolationAt, h]
  · simp [voutViolationAt, h, List.take_succ_cons, add_assoc]

/-- The transparent-output loop reports the first indexed violation in scan
order, and succeeds with the cumulated output value when there is none. -/
theorem voutLoop_spec (l : List CTxOut) : ∀ base : CAmount,
    (∀ i r, (∀ j, j < i → voutViolationAt base l j = none) →
      voutViolationAt base l i = some r →
      checkVoutAmountLoop base l = .error r) ∧
    ((∀ j, j < l.length → voutViolationAt base l j = none) →
      checkVoutAmountLoop base l = .ok (base + (l.map (·.nValue)).sum)) := by
  induction l with
  | nil =>
    intro base
    constructor
    · intro i r _ hviol
      simp [voutViolationAt] at hviol
    · intro _
      simp [checkVoutAmountLoop]
  | cons t rest ih =>
    intro base
    by_cases hneg : t.nValue < 0
    · have hv0 : voutViolationAt base (t :: rest) 0 = some ⟨100, "bad-txns-vout-negative"⟩ := by
        rw [voutViolationAt_cons_zero, if_pos hneg]
      constructor
      · intro i r hprev hviol
        cases i with
        | zero =>
          rw [hv0] at hviol
          have hr : r = ⟨100, "bad-txns-vout-negative"⟩ := by simpa using hviol.symm
          subst hr
          simp [checkVoutAmountLoop, hneg]
        | succ i' =>
          have h0 := hprev 0 (Nat.succ_pos i')
          rw [hv0] at h0
          cases h0
      · intro hall
        have h0 := hall 0 (by simp)
        rw [hv0] at h0
        cases h0
    · by_cases hbig : t.nValue > MAX_MONEY
      · have hv0 : voutViolationAt base (t :: rest) 0 = some ⟨100, "bad-txns-vout-toolarge"⟩ := by
          rw [voutViolationAt_cons_zero, if_neg hneg, if_pos hbig]
        constructor
        · intro i r hprev hviol
          cases i with
          | zero =>
            rw [hv0] at hviol
            have hr : r = ⟨100, "bad-txns-vout-toolarge"⟩ := by simpa using hviol.symm
            subst hr
            simp [checkVoutAmountLoop, hneg, hbig]
          | succ i' =>
            have h0 := hprev 0 (Nat.succ_pos i')
            rw [hv0] at h0
            cases h0
        · intro hall
          have h0 := hall 0 (by simp)
          rw [hv0] at h0
          cases h0
      · by_cases hrange : MoneyRange (base + t.nValue) = true
        · have hv0 : voutViolationAt base (t :: rest) 0 = none := by
            rw [voutViolationAt_cons_zero, if_neg hneg, if_neg hbig]
            simp [hrange]
          have hloop : checkVoutAmountLoop base (t :: rest) =
              checkVoutAmountLoop (base + t.nValue) rest := by
            simp [checkVoutAmountLoop, hneg, hbig, hrange]
          constructor
          · intro i r hprev hviol
            cases i with
            | zero =>
              rw [hv0] at hviol
              cases hviol
            | succ i' =>
              rw [voutViolationAt_cons_succ] at hviol
              rw [hloop]
              refine (ih (base + t.nValue)).1 i' r ?_ hviol
              intro j hj
              have h' := hprev (j + 1) (Nat.succ_lt_succ hj)
              rwa [voutViolationAt_cons_succ] at h'
          · intro hall
            have hrest : ∀ j, j < rest.length → voutViolationAt (base + t.nValue) rest j = none := by
              intro j hj
              have h' := hall (j + 1) (by simpa using Nat.succ_lt_succ hj)
              rwa [voutViolationAt_cons_succ] at h'
            rw [hloop, (ih (base + t.nValue)).2 hrest]
            simp [add_assoc]
        · have hv0 : voutViolationAt base (t :: rest) 0 =
              some ⟨100, "bad-txns-txouttotal-toolarge"⟩ := by
            rw [voutViolationAt_cons_zero, if_neg hneg, if_neg hbig]
            simp [hrange]
          constructor
          · intro i r hprev hviol
            cases i with
            | zero =>
              rw [hv0] at hviol
              have hr : r = ⟨100, "bad-txns-txouttotal-toolarge"⟩ := by simpa using hviol.symm
              subst hr
              simp only [Bool.not_eq_true] at hrange
              simp [checkVoutAmountLoop, hneg, hbig, hrange]
            | succ i' =>
              have h0 := hprev 0 (Nat.succ_pos i')
              rw [hv0] at h0
              cases h0
          · intro hall
            have h0 := hall 0 (by simp)
            rw [hv0] at h0
            cases h0

/-- C2: `CheckOutputsAmount` scans the transparent outputs in order and
fails at the first indexed violation with that violation's named reason; if
no output violates, it proceeds to the joinsplit portion with the cumulated
output value. -/
theorem checkOutputsAmount_first_violation (tx : CTransaction) :
    (∀ i r, (∀ j, j < i → voutViolationAt 0 tx.vout j = none) →
      voutViolationAt 0 tx.vout i = some r →
      tx.CheckOutputsAmount = .error r) ∧
    ((∀ j, j < tx.vout.length → voutViolationAt 0 tx.vout j = none) →
      tx.CheckOutputsAmount = checkJsOutputsLoop (sumVoutValues tx) tx.vjoinsplit) := by
  constructor
  · intro i r hprev hviol
    have h := (voutLoop_spec tx.vout 0).1 i r hprev hviol
    simp [CTransaction.CheckOutputsAmount, h]
  · intro hall
    have h := (voutLoop_spec tx.vout 0).2 hall
    simp [CTransaction.CheckOutputsAmount, h, sumVoutValues]

/-- Witness for C2: in a record whose second output is negative and whose
third exceeds `MAX_MONEY`, the scan fails with the second output's
`bad-txns-vout-negative`, not a later violation's reason. -/
theorem checkOutputsAmount_first_violation_witness :
    txVoutBad.CheckOutputsAmount = .error ⟨100, "bad-txns-vout-negative"⟩ :=
  (checkOutputsAmount_first_violation txVoutBad).1 1 ⟨100, "bad-txns-vout-negative"⟩
    (by
      intro j hj
      have hj0 : j = 0 := by omega
      subst hj0
      decide)
    (by decide)

/-- One step of the joinsplit output loop: the head joinsplit must satisfy
all the per-joinsplit checks and keep the running total in range, and the
loop continues on the tail from the increased total. -/
theorem jsOutputsLoop_cons (acc : CAmount) (t : JSDescription) (rest : List JSDescription) :
    checkJsOutputsLoop acc (t :: rest) = .ok () ↔
      (0 ≤ t.vpub_old ∧ t.vpub_old ≤ MAX_MONEY ∧ 0 ≤ t.vpub_new ∧ t.vpub_new ≤ MAX_MONEY ∧
        ¬(t.vpub_new ≠ 0 ∧ t.vpub_old ≠ 0) ∧ MoneyRange (acc + t.vpub_old) = true) ∧
      checkJsOutputsLoop (acc + t.vpub_old) rest = .ok () := by
  by_cases c1 : t.vpub_old < 0
  · simp [checkJsOutputsLoop, c1, not_le.mpr c1]
  · by_cases c2 : t.vpub_new < 0
    · simp [checkJsOutputsLoop, c1, c2, not_le.mpr c2]
    · by_cases c3 : t.vpub_old > MAX_MONEY
      · simp [checkJsOutputsLoop, c1, c2, c3, not_le.mpr c3]
      · by_cases c4 : t.vpub_new > MAX_MONEY
        · simp [checkJsOutputsLoop, c1, c2, c3, c4, not_le.mpr c4]
        · by_cases c5 : t.vpub_new ≠ 0 ∧ t.vpub_old ≠ 0
          · simp [checkJsOutputsLoop, c1, c2, c3, c4, c5]
          · by_cases c6 : MoneyRange (acc + t.vpub_old) = true
            · simp [checkJsOutputsLoop, c1, c2, c3, c4, c5, c6,
                not_lt.mp c1, not_lt.mp c2, not_lt.mp c3, not_lt.mp c4]
            · simp only [Bool.not_eq_true] at c6
              simp [checkJsOutputsLoop, c1, c2, c3, c4, c5, c6]

/-- The joinsplit output loop succeeds iff every joinsplit is well-formed
and every running total of `vpub_old` values (from `acc`) stays in range. -/
theorem jsOutputsLoop_ok_iff (l : List JSDescription) : ∀ acc : CAmount,
    checkJsOutputsLoop acc l = .ok () ↔
      jsValuesWellFormed l ∧
      (∀ k, k < l.length →
        MoneyRange (acc + ((l.take (k + 1)).map (·.vpub_old)).sum) = true) := by
  induction l with
  | nil => intro acc; simp [checkJsOutputsLoop, jsValuesWellFormed]
  | cons t rest ih =>
    intro acc
    rw [jsOutputsLoop_cons, ih (acc + t.vpub_old), forallTotals_cons (·.vpub_old) t rest acc,
      show jsValuesWellFormed (t :: rest) ↔
        ((0 ≤ t.vpub_old ∧ t.vpub_old ≤ MAX_MONEY ∧ 0 ≤ t.vpub_new ∧ t.vpub_new ≤ MAX_MONEY ∧
          ¬(t.vpub_new ≠ 0 ∧ t.vpub_old ≠ 0)) ∧ jsValuesWellFormed rest) from by
        simp [jsValuesWellFormed, List.forall_mem_cons]]
    tauto

/-- A `bad-txns-vpubs-both-nonzero` failure of the joinsplit output loop
pinpoints a joinsplit with both `vpub_new` and `vpub_old` nonzero. -/
theorem jsOutputsLoop_bothNonzero (l : List JSDescription) : ∀ acc : CAmount,
    checkJsOutputsLoop acc l = .error ⟨100, "bad-txns-vpubs-both-nonzero"⟩ →
      ∃ js ∈ l, js.vpub_new ≠ 0 ∧ js.vpub_old ≠ 0 := by
  induction l with
  | nil => intro acc he; simp [checkJsOutputsLoop] at he
  | cons t rest ih =>
    intro acc he
    by_cases c1 : t.vpub_old < 0
    · rw [show checkJsOutputsLoop acc (t :: rest) = .error ⟨100, "bad-txns-vpub_old-negative"⟩
        from by simp [checkJsOutputsLoop, c1]] at he
      simp at he
    · by_cases c2 : t.vpub_new < 0
      · rw [show checkJsOutputsLoop acc (t :: rest) = .error ⟨100, "bad-txns-vpub_new-negative"⟩
          from by simp [checkJsOutputsLoop, c1, c2]] at he
        simp at he
      · by_cases c3 : t.vpub_old > MAX_MONEY
        · rw [show checkJsOutputsLoop acc (t :: rest) = .error ⟨100, "bad-txns-vpub_old-toolarge"⟩
            from by simp [checkJsOutputsLoop, c1, c2, c3]] at he
          simp at he
        · by_cases c4 : t.vpub_new > MAX_MONEY
          · rw [show checkJsOutputsLoop acc (t :: rest) = .error ⟨100, "bad-txns-vpub_new-toolarge"⟩
              from by simp [checkJsOutputsLoop, c1, c2, c3, c4]] at he
            simp at he
          · by_cases c5 : t.vpub_new ≠ 0 ∧ t.vpub_old ≠ 0
            · exact ⟨t, List.mem_cons_self t rest, c5⟩
            · by_cases c6 : MoneyRange (acc + t.vpub_old) = true
              · rw [show checkJsOutputsLoop acc (t :: rest) =
                    checkJsOutputsLoop (acc + t.vpub_old) rest
                  from by simp [checkJsOutputsLoop, c1, c2, c3, c4, c5, c6]] at he
                rcases ih (acc + t.vpub_old) he with ⟨js, hmem, hjs⟩
                exact ⟨js, List.mem_cons_of_mem t hmem, hjs⟩
              · simp only [Bool.not_eq_true] at c6
                rw [show checkJsOutputsLoop acc (t :: rest) =
                    .error ⟨100, "bad-txns-txouttotal-toolarge"⟩
                  from by simp [checkJsOutputsLoop, c1, c2, c3, c4, c5, c6]] at he
                simp at he

/-- C3: for a record whose transparent outputs all pass, `CheckOutputsAmount`
succeeds iff every joinsplit's `vpub_old` and `vpub_new` lie in
`[0, MAX_MONEY]` with at most one nonzero, and every running output total
including `vpub_old` stays in `MoneyRange`; a `bad-txns-vpubs-both-nonzero`
failure pinpoints a joinsplit with both values nonzero. -/
theorem checkOutputsAmount_js_iff (tx : CTransaction)
    (hvout : ∀ j, j < tx.vout.length → voutViolationAt 0 tx.vout j = none) :
    (tx.CheckOutputsAmount = .ok () ↔
      jsValuesWellFormed tx.vjoinsplit ∧
      (∀ k, k < tx.vjoinsplit.length →
        MoneyRange (sumVoutValues tx +
          ((tx.vjoinsplit.take (k + 1)).map (·.vpub_old)).sum) = true)) ∧
    (tx.CheckOutputsAmount = .error ⟨100, "bad-txns-vpubs-both-nonzero"⟩ →
      ∃ js ∈ tx.vjoinsplit, js.vpub_new ≠ 0 ∧ js.vpub_old ≠ 0) := by
  have h := (voutLoop_spec tx.vout 0).2 hvout
  constructor
  · rw [show tx.CheckOutputsAmount = checkJsOutputsLoop (0 + (tx.vout.map (·.nValue)).sum)
        tx.vjoinsplit from by simp [CTransaction.CheckOutputsAmount, h]]
    rw [jsOutputsLoop_ok_iff]
    simp [sumVoutValues]
  · intro he
    rw [show tx.CheckOutputsAmount = checkJsOutputsLoop (0 + (tx.vout.map (·.nValue)).sum)
        tx.vjoinsplit from by simp [CTransaction.CheckOutputsAmount, h]] at he
    exact jsOutputsLoop_bothNonzero tx.vjoinsplit _ he

/-- Witness for C3: a record with in-range outputs and two joinsplits, one
with only `vpub_old = 3` and one with only `vpub_new = 5`, passes
`CheckOutputsAmount`. -/
theorem checkOutputsAmount_js_iff_witness : txJsGood.CheckOutputsAmount = .ok () := by
  apply (checkOutputsAmount_js_iff txJsGood (by
    intro j hj
    have hj0 : j = 0 := by
      simp [txJsGood] at hj
      omega
    subst hj0
    decide)).1.mpr
  refine ⟨?_, ?_⟩
  · intro js hjs
    simp [txJsGood] at hjs
    rcases hjs with rfl | rfl <;> decide
  · intro k hk
    have hk2 : k = 0 ∨ k = 1 := by
      simp [txJsGood] at hk
      omega
    rcases hk2 with rfl | rfl <;> decide

/-- The input-duplication loop succeeds iff the scanned prior-output
references are pairwise distinct and none was already in the seen-set. -/
theorem vinDupLoop_ok_iff (l : List CTxIn) : ∀ seen : List COutPoint,
    (∃ s, checkVinDupLoop seen l = .ok s) ↔
      ((l.map (·.prevout)).Nodup ∧ ∀ txin ∈ l, txin.prevout ∉ seen) := by
  induction l with
  | nil => intro seen; simp [checkVinDupLoop]
  | cons t rest ih =>
    intro seen
    by_cases h : t.prevout ∈ seen
    · simp only [checkVinDupLoop, h, if_true, if_pos]
      constructor
      · rintro ⟨s, hs⟩
        cases hs
      · rintro ⟨-, hni⟩
        exact absurd h (hni t (List.mem_cons_self t rest))
    · rw [show checkVinDupLoop seen (t :: rest) = checkVinDupLoop (t.prevout :: seen) rest
        from by simp [checkVinDupLoop, h]]
      rw [ih (t.prevout :: seen)]
      constructor
      · rintro ⟨hnd, hni⟩
        refine ⟨?_, ?_⟩
        · rw [List.map_cons, List.nodup_cons]
          refine ⟨?_, hnd⟩
          intro hmem
          rcases List.mem_map.mp hmem with ⟨txin, htxin, heq⟩
          exact (hni txin htxin) (by rw [heq]; exact List.mem_cons_self _ _)
        · intro txin htxin
          rcases List.mem_cons.mp htxin with heq | hmem
          · rw [heq]; exact h
          · intro hseen
            exact (hni txin hmem) (List.mem_cons_of_mem _ hseen)
      · rintro ⟨hnd, hni⟩
        rw [List.map_cons, List.nodup_cons] at hnd
        refine ⟨hnd.2, ?_⟩
        intro txin htxin
        intro hmem
        rcases List.mem_cons.mp hmem with heq | hseen
        · exact hnd.1 (List.mem_map.mpr ⟨txin, htxin, heq⟩)
        · exact (hni txin (List.mem_cons_of_mem _ htxin)) hseen

/-- Any failure of the input-duplication loop carries the
`bad-txns-inputs-duplicate` reason at DoS level 100. -/
theorem vinDupLoop_error (l : List CTxIn) : ∀ (seen : List COutPoint) (e : Rejection),
    checkVinDupLoop seen l = .error e → e = ⟨100, "bad-txns-inputs-duplicate"⟩ := by
  induction l with
  | nil => intro seen e he; simp [checkVinDupLoop] at he
  | cons t rest ih =>
    intro seen e he
    by_cases h : t.prevout ∈ seen
    · simp [checkVinDupLoop, h] at he
      exact he.symm
    · simp [checkVinDupLoop, h] at he
      exact ih _ _ he

/-- On success, the inner nullifier loop returns the seen-set extended by
the scanned nullifiers. -/
theorem nfInner_ok_val (nfs : List Uint256) : ∀ (seen s : List Uint256),
    checkNullifiersInJs seen nfs = .ok s → s = nfs.reverse ++ seen := by
  induction nfs with
  | nil => intro seen s hs; simp [checkNullifiersInJs] at hs; exact hs.symm
  | cons nf rest ih =>
    intro seen s hs
    by_cases h : nf ∈ seen
    · simp [checkNullifiersInJs, h] at hs
    · simp [checkNullifiersInJs, h] at hs
      rw [ih _ _ hs]
      simp

/-- The inner nullifier loop succeeds iff the scanned nullifiers are
pairwise distinct and none was already in the seen-set. -/
theorem nfInner_ok_iff (nfs : List Uint256) : ∀ seen : List Uint256,
    (∃ s, checkNullifiersInJs seen nfs = .ok s) ↔
      (nfs.Nodup ∧ ∀ nf ∈ nfs, nf ∉ seen) := by
  induction nfs with
  | nil => intro seen; simp [checkNullifiersInJs]
  | cons nf rest ih =>
    intro seen
    by_cases h : nf ∈ seen
    · simp only [checkNullifiersInJs, h, if_pos]
      constructor
      · rintro ⟨s, hs⟩
        cases hs
      · rintro ⟨-, hni⟩
        exact absurd h (hni nf (List.mem_cons_self nf rest))
    · rw [show checkNullifiersInJs seen (nf :: rest) = checkNullifiersInJs (nf :: seen) rest
        from by simp [checkNullifiersInJs, h]]
      rw [ih (nf :: seen)]
      constructor
      · rintro ⟨hnd, hni⟩
        refine ⟨List.nodup_cons.mpr ⟨?_, hnd⟩, ?_⟩
        · intro hmem
          exact (hni nf hmem) (List.mem_cons_self _ _)
        · intro x hx
          rcases List.mem_cons.mp hx with heq | hmem
          · rw [heq]; exact h
          · intro hseen
            exact (hni x hmem) (List.mem_cons_of_mem _ hseen)
      · rintro ⟨hnd, hni⟩
        rw [List.nodup_cons] at hnd
        refine ⟨hnd.2, ?_⟩
        intro x hx hmem
        rcases List.mem_cons.mp hmem with heq | hseen
        · rw [heq] at hx
          exact hnd.1 hx
        · exact (hni x (List.mem_cons_of_mem _ hx)) hseen

/-- Any failure of the inner nullifier loop carries the
`bad-joinsplits-nullifiers-duplicate` reason at DoS level 100. -/
theorem nfInner_error (nfs : List Uint256) : ∀ (seen : List Uint256) (e : Rejection),
    checkNullifiersInJs seen nfs = .error e →
      e = ⟨100, "bad-joinsplits-nullifiers-duplicate"⟩ := by
  induction nfs with
  | nil => intro seen e he; simp [checkNullifiersInJs] at he
  | cons nf rest ih =>
    intro seen e he
    by_cases h : nf ∈ seen
    · simp [checkNullifiersInJs, h] at he
      exact he.symm
    · simp [checkNullifiersInJs, h] at he
      exact ih _ _ he

/-- The outer nullifier loop succeeds iff all nullifiers across all
joinsplits, taken together, are pairwise distinct and disjoint from the
seen-set. -/
theorem nfOuter_ok_iff (l : List JSDescription) : ∀ seen : List Uint256,
    checkJsNullifierLoop seen l = .ok () ↔
      ((l.map (·.nullifiers)).flatten.Nodup ∧
        ∀ nf ∈ (l.map (·.nullifiers)).flatten, nf ∉ seen) := by
  induction l with
  | nil => intro seen; simp [checkJsNullifierLoop]
  | cons t rest ih =>
    intro seen
    rcases hres : checkNullifiersInJs seen t.nullifiers with e | s
    · have hnc : ¬(t.nullifiers.Nodup ∧ ∀ nf ∈ t.nullifiers, nf ∉ seen) := by
        intro hc
        rcases (nfInner_ok_iff t.nullifiers seen).mpr hc with ⟨s, hs⟩
        rw [hres] at hs
        cases hs
      rw [show checkJsNullifierLoop seen (t :: rest) = .error e
        from by simp [checkJsNullifierLoop, hres]]
      simp only [List.map_cons, List.flatten_cons, List.nodup_append, List.mem_append]
      constructor
      · intro hab
        cases hab
      · rintro ⟨⟨hnd_t, -, -⟩, hns⟩
        exact absurd ⟨hnd_t, fun nf hnf => hns nf (Or.inl hnf)⟩ hnc
    · have hval := nfInner_ok_val t.nullifiers seen s hres
      have hcond := (nfInner_ok_iff t.nullifiers seen).mp ⟨s, hres⟩
      subst hval
      rw [show checkJsNullifierLoop seen (t :: rest) =
          checkJsNullifierLoop (t.nullifiers.reverse ++ seen) rest
        from by simp [checkJsNullifierLoop, hres]]
      rw [ih (t.nullifiers.reverse ++ seen)]
      simp only [List.map_cons, List.flatten_cons, List.nodup_append, List.mem_append,
        List.mem_reverse]
      constructor
      · rintro ⟨hndrest, hdisj⟩
        refine ⟨⟨hcond.1, hndrest, ?_⟩, ?_⟩
        · intro a ha hajoin
          exact (hdisj a hajoin) (Or.inl ha)
        · rintro nf (h1 | h2)
          · exact hcond.2 nf h1
          · intro hseen
            exact (hdisj nf h2) (Or.inr hseen)
      · rintro ⟨⟨hnd_t, hndrest, hdisj_tj⟩, hnotseen⟩
        refine ⟨hndrest, ?_⟩
        rintro nf hnf (h1 | h2)
        · exact hdisj_tj h1 hnf
        · exact hnotseen nf (Or.inr hnf) h2

/-- Any failure of the outer nullifier loop carries the
`bad-joinsplits-nullifiers-duplicate` reason at DoS level 100. -/
theorem nfOuter_error (l : List JSDescription) : ∀ (seen : List Uint256) (e : Rejection),
    checkJsNullifierLoop seen l = .error e →
      e = ⟨100, "bad-joinsplits-nullifiers-duplicate"⟩ := by
  induction l with
  | nil => intro seen e he; simp [checkJsNullifierLoop] at he
  | cons t rest ih =>
    intro seen e he
    rcases hres : checkNullifiersInJs seen t.nullifiers with e' | s
    · simp [checkJsNullifierLoop, hres] at he
      rw [← he]
      exact nfInner_error t.nullifiers seen e' hres
    · simp [checkJsNullifierLoop, hres] at he
      exact ih _ _ he

/-- C5: `CheckInputsDuplication` succeeds iff no two inputs reference the
same prior output and no nullifier occurs twice across all joinsplits of
the record taken together; a repeated prior-output reference fails with
`bad-txns-inputs-duplicate` and a repeated nullifier with
`bad-joinsplits-nullifiers-duplicate`. -/
theorem checkInputsDuplication_spec (tx : CTransaction) :
    (tx.CheckInputsDuplication = .ok () ↔
      (tx.vin.map (·.prevout)).Nodup ∧
        ((tx.vjoinsplit.map (·.nullifiers)).flatten).Nodup) ∧
    (¬(tx.vin.map (·.prevout)).Nodup →
      tx.CheckInputsDuplication = .error ⟨100, "bad-txns-inputs-duplicate"⟩) ∧
    ((tx.vin.map (·.prevout)).Nodup →
      ¬((tx.vjoinsplit.map (·.nullifiers)).flatten).Nodup →
      tx.CheckInputsDuplication = .error ⟨100, "bad-joinsplits-nullifiers-duplicate"⟩) := by
  rcases hvin : checkVinDupLoop [] tx.vin with e | s
  · have he := vinDupLoop_error tx.vin [] e hvin
    subst he
    have hnot : ¬((tx.vin.map (·.prevout)).Nodup) := by
      intro hnd
      rcases (vinDupLoop_ok_iff tx.vin []).mpr ⟨hnd, by simp⟩ with ⟨s, hs⟩
      rw [hvin] at hs
      cases hs
    refine ⟨?_, ?_, ?_⟩
    · rw [show tx.CheckInputsDuplication = .error ⟨100, "bad-txns-inputs-duplicate"⟩
        from by simp [CTransaction.CheckInputsDuplication, hvin]]
      constructor
      · intro hab
        cases hab
      · rintro ⟨h1, -⟩
        exact absurd h1 hnot
    · intro _
      simp [CTransaction.CheckInputsDuplication, hvin]
    · intro h1 _
      exact absurd h1 hnot
  · have hcond := (vinDupLoop_ok_iff tx.vin []).mp ⟨s, hvin⟩
    rcases hnf : checkJsNullifierLoop [] tx.vjoinsplit with e | u
    · have he := nfOuter_error tx.vjoinsplit [] e hnf
      subst he
      have hnotnf : ¬((tx.vjoinsplit.map (·.nullifiers)).flatten.Nodup) := by
        intro hnd
        have h' := (nfOuter_ok_iff tx.vjoinsplit []).mpr ⟨hnd, by simp⟩
        rw [hnf] at h'
        cases h'
      refine ⟨?_, ?_, ?_⟩
      · rw [show tx.CheckInputsDuplication =
            .error ⟨100, "bad-joinsplits-nullifiers-duplicate"⟩
          from by simp [CTransaction.CheckInputsDuplication, hvin, hnf]]
        constructor
        · intro hab
          cases hab
        · rintro ⟨-, h2⟩
          exact absurd h2 hnotnf
      · intro hnd
        exact absurd hcond.1 hnd
      · intro _ _
        simp [CTransaction.CheckInputsDuplication, hvin, hnf]
    · cases u
      have hnfc := (nfOuter_ok_iff tx.vjoinsplit []).mp hnf
      refine ⟨?_, ?_, ?_⟩
      · rw [show tx.CheckInputsDuplication = .ok ()
          from by simp [CTransaction.CheckInputsDuplication, hvin, hnf]]
        simp [hcond.1, hnfc.1]
      · intro hnd
        exact absurd hcond.1 hnd
      · intro _ hnd
        exact absurd hnfc.1 hnd

/-- Witness for C5: a record with two inputs referencing the same prior
output fails with `bad-txns-inputs-duplicate`. -/
theorem checkInputsDuplication_spec_witness :
    txDupIn.CheckInputsDuplication = .error ⟨100, "bad-txns-inputs-duplicate"⟩ :=
  (checkInputsDuplication_spec txDupIn).2.1 (by decide)

/-- When the `GetValueOut` output loop succeeds, its result is the plain sum
of the output values on top of the accumulator. -/
theorem getValueOutVoutLoop_sum (l : List CTxOut) : ∀ (acc v : CAmount),
    getValueOutVoutLoop acc l = some v → v = acc + (l.map (·.nValue)).sum := by
  induction l with
  | nil =>
    intro acc v h
    simp [getValueOutVoutLoop] at h
    simp [h.symm]
  | cons t rest ih =>
    intro acc v h
    by_cases hc : (!MoneyRange t.nValue || !MoneyRange (acc + t.nValue)) = true
    · simp [getValueOutVoutLoop, hc] at h
    · simp only [Bool.not_eq_true] at hc
      simp [getValueOutVoutLoop, hc] at h
      have hv := ih _ _ h
      simp only [List.map_cons, List.sum_cons]
      rw [hv, add_assoc]

/-- When the `GetValueOut` joinsplit loop succeeds, its result is the plain
sum of the `vpub_old` values on top of the accumulator. -/
theorem getValueOutJsLoop_sum (l : List JSDescription) : ∀ (acc v : CAmount),
    getValueOutJsLoop acc l = some v → v = acc + (l.map (·.vpub_old)).sum := by
  induction l with
  | nil =>
    intro acc v h
    simp [getValueOutJsLoop] at h
    simp [h.symm]
  | cons t rest ih =>
    intro acc v h
    by_cases hc : (!MoneyRange t.vpub_old || !MoneyRange (acc + t.vpub_old)) = true
    · simp [getValueOutJsLoop, hc] at h
    · simp only [Bool.not_eq_true] at hc
      simp [getValueOutJsLoop, hc] at h
      have hv := ih _ _ h
      simp only [List.map_cons, List.sum_cons]
      rw [hv, add_assoc]

/-- When the crosschain-out sum succeeds, its result is the plain sum of the
crosschain output values on top of the accumulator. -/
theorem getValueCcOutLoop_sum (l : List CTxCrosschainOut) : ∀ (acc v : CAmount),
    getValueCcOutLoop acc l = some v → v = acc + (l.map (·.nValue)).sum := by
  induction l with
  | nil =>
    intro acc v h
    simp [getValueCcOutLoop] at h
    simp [h.symm]
  | cons t rest ih =>
    intro acc v h
    by_cases hc : (!MoneyRange t.nValue || !MoneyRange (acc + t.nValue)) = true
    · simp [getValueCcOutLoop, hc] at h
    · simp only [Bool.not_eq_true] at hc
      simp [getValueCcOutLoop, hc] at h
      have hv := ih _ _ h
      simp only [List.map_cons, List.sum_cons]
      rw [hv, add_assoc]

/-- When `CheckInputsAmount`'s loop accepts, the `GetJoinSplitValueIn` loop
(which performs the identical range checks) succeeds and returns the plain
sum of the `vpub_new` values on top of the accumulator. -/
theorem checkInputsLoop_getValueIn (l : List JSDescription) : ∀ acc : CAmount,
    checkInputsAmountLoop acc l = .ok () →
      getJoinSplitValueInLoop acc l = some (acc + (l.map (·.vpub_new)).sum) := by
  induction l with
  | nil =>
    intro acc _
    simp [getJoinSplitValueInLoop]
  | cons t rest ih =>
    intro acc h
    by_cases hc : (!MoneyRange t.vpub_new || !MoneyRange (acc + t.vpub_new)) = true
    · simp [checkInputsAmountLoop, hc] at h
    · simp [checkInputsAmountLoop, hc] at h
      rw [show getJoinSplitValueInLoop acc (t :: rest) =
          getJoinSplitValueInLoop (acc + t.vpub_new) rest
        from by simp [getJoinSplitValueInLoop, hc]]
      rw [ih _ h]
      simp [add_assoc]

/-- C1 counterexample: this record passes `CheckOutputsAmount` and
`CheckInputsAmount`, yet the sum of its transparent outputs plus joinsplit
`vpub_old` minus joinsplit `vpub_new` (= 10) differs from
`GetValueOut() - GetJoinSplitValueIn()` (= 15 - 0), because `GetValueOut`
also counts the crosschain output of 5, which neither check constrains. -/
theorem valueConservation_counterexample :
    ccTx.CheckOutputsAmount = .ok () ∧ ccTx.CheckInputsAmount = .ok () ∧
    ccTx.GetValueOut = some 15 ∧ ccTx.GetJoinSplitValueIn = some 0 ∧
    sumVoutValues ccTx + sumVpubOld ccTx - sumVpubNew ccTx = 10 ∧
    ¬(sumVoutValues ccTx + sumVpubOld ccTx - sumVpubNew ccTx = 15 - 0) := by
  exact ⟨by rfl, by rfl, by rfl, by rfl, by decide, by decide⟩

/-- C1 (amended): for every record accepted by `CheckOutputsAmount` and
`CheckInputsAmount` whose `GetValueOut()` evaluates (does not overflow), the
sum of the transparent output amounts plus the joinsplit `vpub_old` sum plus
the crosschain output sums minus the joinsplit `vpub_new` sum equals
`GetValueOut() - GetJoinSplitValueIn()`, exactly. -/
theorem valueConservation_amended (tx : CTransaction) (v : CAmount)
    (hout : tx.CheckOutputsAmount = .ok ()) (hin : tx.CheckInputsAmount = .ok ())
    (hv : tx.GetValueOut = some v) :
    tx.GetJoinSplitValueIn = some (sumVpubNew tx) ∧
    sumVoutValues tx + sumVpubOld tx + sumCcOutValues tx - sumVpubNew tx =
      v - sumVpubNew tx := by
  have hjs : tx.GetJoinSplitValueIn = some (sumVpubNew tx) := by
    have h := checkInputsLoop_getValueIn tx.vjoinsplit 0 hin
    simpa [CTransaction.GetJoinSplitValueIn, sumVpubNew] using h
  refine ⟨hjs, ?_⟩
  simp only [CTransaction.GetValueOut, GetValueCcOut, Option.bind_eq_bind,
    Option.bind_eq_some, Option.some.injEq] at hv
  obtain ⟨b, hb, w, hw, s1, hs1, s2, hs2, s3, hs3, hsum⟩ := hv
  have hb' := getValueOutVoutLoop_sum tx.vout 0 b hb
  have hw' := getValueOutJsLoop_sum tx.vjoinsplit b w hw
  have hs1' := getValueCcOutLoop_sum tx.vsc_ccout 0 s1 hs1
  have hs2' := getValueCcOutLoop_sum tx.vcl_ccout 0 s2 hs2
  have hs3' := getValueCcOutLoop_sum tx.vft_ccout 0 s3 hs3
  subst hb' hw' hs1' hs2' hs3'
  simp only [sumVoutValues, sumVpubOld, sumVpubNew, sumCcOutValues]
  rw [← hsum]
  ring

/-- Witness for C1: instantiating the amended conservation law on the
crosschain record with `GetValueOut() = 15`. -/
theorem valueConservation_amended_witness :
    ccTx.GetJoinSplitValueIn = some (sumVpubNew ccTx) ∧
    sumVoutValues ccTx + sumVpubOld ccTx + sumCcOutValues ccTx - sumVpubNew ccTx =
      15 - sumVpubNew ccTx :=
  valueConservation_amended ccTx 15 (by rfl) (by rfl) (by rfl)

end ZenTx
